import Mathlib

/-!
Shallow embedding of the lobe-chat data exporter
(`src/database/repositories/dataExporter/index.ts`) and of the settings-panel
clear-all flow (`AdvancedActions.handleClear`), together with theorems
settling the specification claims about them.

Modelling conventions:
* a database row (a plain JS object) is an association list from field name
  to field value; a missing property reads as `none`;
* the drizzle `where` expressions `eq`, `inArray`, `and` are modelled
  syntactically by the `Condition` AST, so theorems can talk about exactly
  which filter a query was issued with;
* the database (`db.query[table].findMany`) is an abstract function
  `runQuery : String → Condition → Except String (List Row)` supplied by an
  `Env`, which also carries the schema registry (`EXPORT_TABLES`): for each
  known table name, its list of column names;
* `async`/`await` with `pMap` is embedded sequentially: JS runs these
  callbacks on a single thread, and the per-phase `await pMap (...)`
  boundaries are what the temporal claims are about.  Each phase records the
  queries it issues in an event trace;
* a thrown exception is `Except.error`; a `try/catch` is a `match` on it.
-/

namespace DataExporter

/-- Row: a JS object holding a database row, modelled as an association list
from field name to field value. -/
abbrev Row := List (String × String)

/-- Reading property `field` of a row: `item[field]`, `none` when the
property is absent. -/
def getField (row : Row) (field : String) : Option String :=
  (row.find? (fun p => decide (p.1 = field))).map (fun p => p.2)

/-- Condition: the drizzle `where`-expression AST as the exporter builds it.
A column reference `tableObj[f]` is `Option String`: `none` when the column
is not part of the table's schema (JS `undefined`). -/
inductive Condition where
  | eqCond (column : Option String) (value : String)
  | inArrayCond (column : Option String) (values : List (Option String))
  | andCond (conds : List Condition)
deriving Repr

/-- Env: the exporter's collaborators. `tables` is the `EXPORT_TABLES`
schema registry (table name to column names); `runQuery` is
`db.query[table].findMany({ where })`. -/
structure Env where
  tables : List (String × List String)
  runQuery : String → Condition → Except String (List Row)

/-- Looking the table up in the registry: `EXPORT_TABLES[table]`. -/
def findTable (env : Env) (table : String) : Option (List String) :=
  (env.tables.find? (fun p => decide (p.1 = table))).map (fun p => p.2)

/-- Column access `tableObj[f]` where `f` itself may be a missing config
field (JS `undefined`). -/
def columnRef (cols : List String) (f : Option String) : Option String :=
  f.bind (fun name => if cols.contains name then some name else none)

/-- BaseTableConfig from the source: `{ table, type: 'base', userField? }`. -/
structure BaseTableConfig where
  table : String
  userField : Option String := none
deriving Repr, DecidableEq

/-- One entry of `RelationTableConfig.relations`:
`{ field, sourceField?, sourceTable }`.  In the shipped config some entries
omit `field`, so it is optional here even though the TS interface declares
it required (the literal is cast with `as RelationTableConfig[]`). -/
structure RelationConfig where
  field : Option String := none
  sourceField : Option String := none
  sourceTable : String
deriving Repr, DecidableEq

/-- RelationTableConfig from the source: `{ relations, table, type: 'relation' }`. -/
structure RelationTableConfig where
  relations : List RelationConfig
  table : String
deriving Repr, DecidableEq

/-- ExportConfig: the shape of `DATA_EXPORT_CONFIG`. -/
structure ExportConfig where
  baseTables : List BaseTableConfig
  relationTables : List RelationTableConfig
deriving Repr, DecidableEq

/-- DATA_EXPORT_CONFIG, transcribed from the source file. -/
def DATA_EXPORT_CONFIG : ExportConfig where
  baseTables := [
    { table := "users", userField := some "id" },
    { table := "userSettings", userField := some "id" },
    { table := "userInstalledPlugins" },
    { table := "agents" },
    { table := "sessionGroups" },
    { table := "sessions" },
    { table := "topics" },
    { table := "threads" },
    { table := "messages" },
    { table := "files" },
    { table := "knowledgeBases" },
    { table := "agentsKnowledgeBases" },
    { table := "aiProviders" },
    { table := "aiModels" },
    { table := "asyncTasks" },
    { table := "chunks" },
    { table := "embeddings" }]
  relationTables := [
    { relations := [
        { field := some "agentId", sourceField := some "id", sourceTable := "agents" },
        { sourceField := some "sessionId", sourceTable := "sessions" }],
      table := "agentsToSessions" },
    { relations := [
        { sourceField := some "agentId", sourceTable := "agents" },
        { sourceField := some "fileId", sourceTable := "files" }],
      table := "agentsFiles" },
    { relations := [{ field := some "sessionId", sourceTable := "sessions" }],
      table := "filesToSessions" },
    { relations := [{ field := some "id", sourceTable := "messages" }],
      table := "messagePlugins" },
    { relations := [{ field := some "id", sourceTable := "messages" }],
      table := "messageTTS" },
    { relations := [{ field := some "id", sourceTable := "messages" }],
      table := "messageTranslates" },
    { relations := [
        { field := some "messageId", sourceTable := "messages" },
        { field := some "fileId", sourceTable := "files" }],
      table := "messagesFiles" },
    { relations := [{ field := some "messageId", sourceTable := "messages" }],
      table := "messageQueries" },
    { relations := [
        { field := some "messageId", sourceTable := "messages" },
        { field := some "chunkId", sourceTable := "chunks" }],
      table := "messageQueryChunks" },
    { relations := [
        { field := some "messageId", sourceTable := "messages" },
        { field := some "chunkId", sourceTable := "chunks" }],
      table := "messageChunks" },
    { relations := [
        { field := some "knowledgeBaseId", sourceTable := "knowledgeBases" },
        { field := some "fileId", sourceTable := "files" }],
      table := "knowledgeBaseFiles" }]

/-- removeUserId: `data.map(({ userId: _, ...rest }) => rest)` — removes the
own property literally named `userId` from every row. -/
def removeUserId (data : List Row) : List Row :=
  data.map (fun item => item.filter (fun p => p.1 ≠ "userId"))

/-- Event: one issued database query, recorded with the exact `where`
condition passed to `findMany`.  Used to state the trace claims. -/
inductive Event where
  | baseQuery (table : String) (cond : Condition)
  | relationQuery (table : String) (cond : Condition)
deriving Repr

/-- isBase: whether an event is a base-phase query. -/
def Event.isBase : Event → Bool
  | .baseQuery _ _ => true
  | .relationQuery _ _ => false

/-- Reading `result[key]` of the accumulating result object: `none` when the
key is absent. -/
def lookupData (result : List (String × List Row)) (key : String) : Option (List Row) :=
  (result.find? (fun p => decide (p.1 = key))).map (fun p => p.2)

/-- queryBaseTables: looks the table up in the registry and throws
`Table ... not found` when absent — note that this throw sits BEFORE the
`try` block, so it escapes as `Except.error`.  Inside the try, it queries
with `eq(tableObj[config.userField || 'userId'], this.userId)`, strips
`userId` from the rows on success, and catches any query error to `[]`.
Returns the data together with the issued-query trace. -/
def queryBaseTables (env : Env) (userId : String) (config : BaseTableConfig) :
    Except String (List Row × List Event) :=
  match findTable env config.table with
  | none => .error ("Table " ++ config.table ++ " not found")
  | some cols =>
    let userField := config.userField.getD "userId"
    let whereCond := Condition.eqCond (columnRef cols (some userField)) userId
    match env.runQuery config.table whereCond with
    | .ok result => .ok (removeUserId result, [Event.baseQuery config.table whereCond])
    | .error _ => .ok ([], [Event.baseQuery config.table whereCond])

/-- buildConditions: the `for (const relation of config.relations)` loop of
`queryTable`.  For each relation it reads
`existingData[relation.sourceTable] || []`; when that source data is empty
the loop early-returns `[]` from `queryTable` (modelled as `none`); otherwise
it pushes `inArray(tableObj[relation.field], sourceIds)` where `sourceIds`
maps each source row to `item[relation.sourceField || 'id']`. -/
def buildConditions (cols : List String) (existingData : List (String × List Row)) :
    List RelationConfig → Option (List Condition)
  | [] => some []
  | relation :: rest =>
    let sourceData := (lookupData existingData relation.sourceTable).getD []
    if sourceData.length = 0 then none
    else
      let sourceIds := sourceData.map (fun item => getField item (relation.sourceField.getD "id"))
      let cond := Condition.inArrayCond (columnRef cols relation.field) sourceIds
      (buildConditions cols existingData rest).map (fun cs => cond :: cs)

/-- combineConditions: `conditions.length === 1 ? conditions[0] : and(...conditions)`. -/
def combineConditions (conds : List Condition) : Condition :=
  match conds with
  | [c] => c
  | cs => Condition.andCond cs

/-- relationCond: the membership condition one relation contributes —
`inArray(tableObj[relation.field], sourceData.map(item => item[relation.sourceField || 'id']))`
over `existing[relation.sourceTable] || []`.  `buildConditions` produces
exactly one of these per declared relation when no source is empty. -/
def relationCond (existing : List (String × List Row)) (cols : List String)
    (r : RelationConfig) : Condition :=
  Condition.inArrayCond (columnRef cols r.field)
    (((lookupData existing r.sourceTable).getD []).map
      (fun item => getField item (r.sourceField.getD "id")))

/-- queryTable (relation tables): throws `Table ... not found` BEFORE its
`try` block when the table is missing from the registry.  Inside the try it
builds the membership conditions (early-returning `[]` when a source is
empty), combines them, and runs the query; any error inside the try is
caught to `[]`.

Two branches of the source are dead and therefore absent here: the
`'userId' in tableObj && table !== 'users' && !config.relations` guard and
the `config.relations ? result : this.removeUserId(result)` ternary both
test the truthiness of `config.relations`, which is always an array (arrays
are truthy in JS, even empty ones), so no `eq(userId)` condition is ever
added and the rows are always returned without `removeUserId`. -/
def queryTable (env : Env) (config : RelationTableConfig)
    (existingData : List (String × List Row)) :
    Except String (List Row × List Event) :=
  match findTable env config.table with
  | none => .error ("Table " ++ config.table ++ " not found")
  | some cols =>
    match buildConditions cols existingData config.relations with
    | none => .ok ([], [])
    | some conds =>
      let whereCond := combineConditions conds
      match env.runQuery config.table whereCond with
      | .ok result => .ok (result, [Event.relationQuery config.table whereCond])
      | .error _ => .ok ([], [Event.relationQuery config.table whereCond])

/-- mapExcept: `pMap` over an `Except`-returning callback.  JS `pMap`
resolves to the list of callback results and rejects as soon as a callback
rejects, so result-wise it is this sequential traversal. -/
def mapExcept (f : α → Except String β) : List α → Except String (List β)
  | [] => .ok []
  | a :: as =>
    match f a with
    | .error e => .error e
    | .ok b =>
      match mapExcept f as with
      | .error e => .error e
      | .ok bs => .ok (b :: bs)

/-- basePhase: the first `await pMap(DATA_EXPORT_CONFIG.baseTables, ...)`
batch of `export`, followed by `result[table] = data` for each outcome.
Returns the base-table result mapping and the concatenated query trace. -/
def baseStep (env : Env) (userId : String) (config : BaseTableConfig) :
    Except String ((String × List Row) × List Event) :=
  match queryBaseTables env userId config with
  | .error e => .error e
  | .ok out => .ok ((config.table, out.1), out.2)

def basePhase (env : Env) (userId : String) (baseTables : List BaseTableConfig) :
    Except String (List (String × List Row) × List Event) :=
  match mapExcept (baseStep env userId) baseTables with
  | .error e => .error e
  | .ok baseResults =>
    .ok (baseResults.map (fun p => p.1), (baseResults.map (fun p => p.2)).flatten)

/-- relationStep: the `pMap` callback of the relation phase: checks
`config.relations.every(r => (result[r.sourceTable] || []).length > 0)` and
short-circuits to `{ data: [], table }` without querying; otherwise defers
to `queryTable`.  `result` here is the mapping as of the start of the
relation phase, i.e. the base-phase results. -/
def relationStep (env : Env) (result : List (String × List Row))
    (config : RelationTableConfig) :
    Except String ((String × List Row) × List Event) :=
  if config.relations.all
      (fun relation => ((lookupData result relation.sourceTable).getD []).length > 0) then
    match queryTable env config result with
    | .error e => .error e
    | .ok out => .ok ((config.table, out.1), out.2)
  else
    .ok ((config.table, []), [])

/-- relationPhase: the second `await pMap(DATA_EXPORT_CONFIG.relationTables, ...)`
batch of `export`.  The callbacks read only `result` as left by the base
phase: the code stores relation outcomes into `result` only after the whole
batch resolves. -/
def relationPhase (env : Env) (relationTables : List RelationTableConfig)
    (result : List (String × List Row)) :
    Except String (List (String × List Row) × List Event) :=
  match mapExcept (relationStep env result) relationTables with
  | .error e => .error e
  | .ok relationResults =>
    .ok (relationResults.map (fun p => p.1), (relationResults.map (fun p => p.2)).flatten)

/-- exportData: `DataExporterRepos.export`.  (`export` is a Lean keyword,
hence the name.)  The `concurrency` argument only bounds in-flight queries
inside each `pMap` batch and does not affect results, so it is not a
parameter here.  Phase 1 is fully awaited before phase 2 starts; the final
mapping is the base entries followed by the relation entries. -/
def exportData (env : Env) (userId : String) (cfg : ExportConfig) :
    Except String (List (String × List Row) × List Event) :=
  match basePhase env userId cfg.baseTables with
  | .error e => .error e
  | .ok base =>
    match relationPhase env cfg.relationTables base.1 with
    | .error e => .error e
    | .ok rel => .ok (base.1 ++ rel.1, base.2 ++ rel.2)

end DataExporter

namespace ClearFlow

/-- ClearOp: the six store-clearing operations wired into `handleClear`, in
their source order, plus the success notification. -/
inductive ClearOp where
  | clearSessions
  | removeAllPlugins
  | clearTopics
  | removeAllFiles
  | clearAllMessages
  | clearSessionGroups
deriving Repr, DecidableEq

/-- clearOrder: the documented invocation order of the six operations. -/
def clearOrder : List ClearOp :=
  [ClearOp.clearSessions, ClearOp.removeAllPlugins, ClearOp.clearTopics,
   ClearOp.removeAllFiles, ClearOp.clearAllMessages, ClearOp.clearSessionGroups]

/-- ClearOps: the outcome each awaited store call would have if invoked
(an async call either resolves or rejects). -/
structure ClearOps where
  clearSessions : Except String Unit
  removeAllPlugins : Except String Unit
  clearTopics : Except String Unit
  removeAllFiles : Except String Unit
  clearAllMessages : Except String Unit
  clearSessionGroups : Except String Unit

/-- Outcome of invoking one operation. -/
def runOp (ops : ClearOps) : ClearOp → Except String Unit
  | ClearOp.clearSessions => ops.clearSessions
  | ClearOp.removeAllPlugins => ops.removeAllPlugins
  | ClearOp.clearTopics => ops.clearTopics
  | ClearOp.removeAllFiles => ops.removeAllFiles
  | ClearOp.clearAllMessages => ops.clearAllMessages
  | ClearOp.clearSessionGroups => ops.clearSessionGroups

/-- opOk: whether invoking the operation would resolve. -/
def opOk (ops : ClearOps) (op : ClearOp) : Bool :=
  match runOp ops op with
  | .ok _ => true
  | .error _ => false

/-- runSeq: sequentially awaits the listed operations, recording each one as
it is invoked; the first rejection stops the sequence (the async function
rethrows).  Returns the invocation trace and whether the end of the
sequence was reached. -/
def runSeq (ops : ClearOps) : List ClearOp → List ClearOp × Bool
  | [] => ([], true)
  | op :: rest =>
    match runOp ops op with
    | .error _ => ([op], false)
    | .ok _ =>
      let out := runSeq ops rest
      (op :: out.1, out.2)

/-- handleClear's `onOk` body: awaits the six clear calls in source order,
then shows the success message only if none of them rejected.  Returns the
invocation trace and whether `message.success` was shown. -/
def onOk (ops : ClearOps) : List ClearOp × Bool :=
  runSeq ops clearOrder

/-- demoOpsOk: all six store calls resolve. -/
def demoOpsOk : ClearOps where
  clearSessions := .ok ()
  removeAllPlugins := .ok ()
  clearTopics := .ok ()
  removeAllFiles := .ok ()
  clearAllMessages := .ok ()
  clearSessionGroups := .ok ()

/-- demoOpsFail: the third call (`clearTopics`) rejects. -/
def demoOpsFail : ClearOps where
  clearSessions := .ok ()
  removeAllPlugins := .ok ()
  clearTopics := .error "boom"
  removeAllFiles := .ok ()
  clearAllMessages := .ok ()
  clearSessionGroups := .ok ()

end ClearFlow

namespace DataExporter

/-- demoEnv: a concrete environment with three tables and a database holding
one agent, two sessions and one agent-session link for user `u1`. -/
def demoEnv : Env where
  tables := [("agents", ["id", "userId", "title"]), ("sessions", ["id", "userId"]),
             ("agentsToSessions", ["agentId", "sessionId"])]
  runQuery := fun t _ =>
    if t == "agents" then .ok [[("id", "a1"), ("userId", "u1"), ("title", "t")]]
    else if t == "sessions" then
      .ok [[("id", "s1"), ("userId", "u1")], [("id", "s2"), ("userId", "u1")]]
    else .ok [[("agentId", "a1"), ("sessionId", "s1")]]

/-- demoRelCfg: the `agentsToSessions` relation-table configuration. -/
def demoRelCfg : RelationTableConfig where
  relations := [
    { field := some "agentId", sourceField := some "id", sourceTable := "agents" },
    { sourceField := some "sessionId", sourceTable := "sessions" }]
  table := "agentsToSessions"

/-- demoCfg: a two-base-table, one-relation-table configuration. -/
def demoCfg : ExportConfig where
  baseTables := [{ table := "agents" }, { table := "sessions" }]
  relationTables := [demoRelCfg]

/-- usersEnv: environment whose `users` table row carries its owner identity
in the `id` column, as the shipped config declares via `userField: 'id'`. -/
def usersEnv : Env where
  tables := [("users", ["id", "email"])]
  runQuery := fun _ _ => .ok [[("id", "u1"), ("email", "e")]]

/-- missingEnv: a registry holding the first eight configured base tables
but not `messages`, with a database that returns no rows. -/
def missingEnv : Env where
  tables := [("users", ["id"]), ("userSettings", ["id"]),
             ("userInstalledPlugins", ["userId"]), ("agents", ["userId"]),
             ("sessionGroups", ["userId"]), ("sessions", ["userId"]),
             ("topics", ["userId"]), ("threads", ["userId"])]
  runQuery := fun _ _ => .ok []

/-- emptyEnv: all three demo tables exist but the database has no rows. -/
def emptyEnv : Env where
  tables := demoEnv.tables
  runQuery := fun _ _ => .ok []

/-- failEnv: all three demo tables exist but every query rejects. -/
def failEnv : Env where
  tables := demoEnv.tables
  runQuery := fun _ _ => .error "boom"

/-- demoExisting: the base-phase result mapping produced by `demoEnv` for
user `u1` (agents stripped of `userId`, then sessions). -/
def demoExisting : List (String × List Row) :=
  [("agents", [[("id", "a1"), ("title", "t")]]),
   ("sessions", [[("id", "s1")], [("id", "s2")]])]

/-- demoOut: the full export outcome on `demoEnv` with `demoCfg`: the
result mapping and the three-query trace (two base, one relation). -/
def demoOut : List (String × List Row) × List Event :=
  ([("agents", [[("id", "a1"), ("title", "t")]]),
    ("sessions", [[("id", "s1")], [("id", "s2")]]),
    ("agentsToSessions", [[("agentId", "a1"), ("sessionId", "s1")]])],
   [Event.baseQuery "agents" (Condition.eqCond (some "userId") "u1"),
    Event.baseQuery "sessions" (Condition.eqCond (some "userId") "u1"),
    Event.relationQuery "agentsToSessions" (Condition.andCond
      [Condition.inArrayCond (some "agentId") [some "a1"],
       Condition.inArrayCond none [none, none]])])

end DataExporter

namespace DataExporter

lemma find?_filter_none (l : List (String × String)) (key : String) :
    (l.filter (fun p => p.1 ≠ key)).find? (fun p => decide (p.1 = key)) = none := by
  induction l with
  | nil => rfl
  | cons p rest ih =>
    by_cases h : p.1 = key
    · simp [List.filter_cons, h, ih]
    · simp [List.filter_cons, h, List.find?_cons, ih]

lemma find?_filter_ne (l : List (String × String)) (key f : String) (hf : f ≠ key) :
    (l.filter (fun p => p.1 ≠ key)).find? (fun p => decide (p.1 = f)) =
      l.find? (fun p => decide (p.1 = f)) := by
  induction l with
  | nil => rfl
  | cons p rest ih =>
    by_cases h : p.1 = key
    · have hpf : ¬ p.1 = f := by rw [h]; exact fun hc => hf hc.symm
      rw [List.filter_cons_of_neg (by simpa using h),
        List.find?_cons_of_neg _ (by simpa using hpf)]
      exact ih
    · by_cases hpf : p.1 = f
      · rw [List.filter_cons_of_pos (by simpa using h),
          List.find?_cons_of_pos _ (by simpa using hpf),
          List.find?_cons_of_pos _ (by simpa using hpf)]
      · rw [List.filter_cons_of_pos (by simpa using h),
          List.find?_cons_of_neg _ (by simpa using hpf),
          List.find?_cons_of_neg _ (by simpa using hpf)]
        exact ih

lemma getField_filter_userId (row : Row) :
    getField (row.filter (fun p => p.1 ≠ "userId")) "userId" = none := by
  unfold getField
  rw [find?_filter_none]
  rfl

lemma getField_filter_ne (row : Row) (f : String) (hf : f ≠ "userId") :
    getField (row.filter (fun p => p.1 ≠ "userId")) f = getField row f := by
  unfold getField
  rw [find?_filter_ne row "userId" f hf]

lemma filter_userId_eq_self (row : Row) (h : getField row "userId" = none) :
    row.filter (fun p => p.1 ≠ "userId") = row := by
  rw [List.filter_eq_self]
  intro p hp
  have hfind : row.find? (fun q => decide (q.1 = "userId")) = none := by
    unfold getField at h
    exact Option.map_eq_none'.mp h
  have hne := List.find?_eq_none.mp hfind p hp
  simpa using hne

lemma forall₂_mem_left {α β : Type} {R : α → β → Prop} {l₁ : List α} {l₂ : List β}
    (h : List.Forall₂ R l₁ l₂) (a : α) (ha : a ∈ l₁) : ∃ b ∈ l₂, R a b := by
  induction h with
  | nil => cases ha
  | cons hr _ ih =>
    rcases List.mem_cons.mp ha with h1 | h1
    · subst h1
      exact ⟨_, List.mem_cons_self _ _, hr⟩
    · obtain ⟨b, hb, hRb⟩ := ih h1
      exact ⟨b, List.mem_cons_of_mem _ hb, hRb⟩

lemma forall₂_mem_right {α β : Type} {R : α → β → Prop} {l₁ : List α} {l₂ : List β}
    (h : List.Forall₂ R l₁ l₂) (b : β) (hb : b ∈ l₂) : ∃ a ∈ l₁, R a b := by
  induction h with
  | nil => cases hb
  | cons hr _ ih =>
    rcases List.mem_cons.mp hb with h1 | h1
    · subst h1
      exact ⟨_, List.mem_cons_self _ _, hr⟩
    · obtain ⟨a, ha, hRa⟩ := ih h1
      exact ⟨a, List.mem_cons_of_mem _ ha, hRa⟩

lemma mapExcept_ok_forall₂ {α β : Type} (f : α → Except String β) (l : List α)
    (bs : List β) (h : mapExcept f l = .ok bs) :
    List.Forall₂ (fun a b => f a = .ok b) l bs := by
  induction l generalizing bs with
  | nil =>
    unfold mapExcept at h
    rw [Except.ok.injEq] at h
    rw [← h]
    exact List.Forall₂.nil
  | cons a as ih =>
    cases hfa : f a with
    | error e => simp [mapExcept, hfa] at h
    | ok b =>
      cases hrest : mapExcept f as with
      | error e => simp [mapExcept, hfa, hrest] at h
      | ok bs' =>
        simp only [mapExcept, hfa, hrest, Except.ok.injEq] at h
        rw [← h]
        exact List.Forall₂.cons hfa (ih bs' hrest)

lemma mapExcept_error_of_mem {α β : Type} (f : α → Except String β) (l : List α)
    (a : α) (e : String) (ha : a ∈ l) (hfa : f a = .error e) :
    ∃ e2, mapExcept f l = .error e2 := by
  induction l with
  | nil => cases ha
  | cons b bs ih =>
    cases hfb : f b with
    | error eb => exact ⟨eb, by simp [mapExcept, hfb]⟩
    | ok vb =>
      rcases List.mem_cons.mp ha with h1 | h1
      · subst h1
        rw [hfb] at hfa
        cases hfa
      · obtain ⟨e2, he2⟩ := ih h1
        exact ⟨e2, by simp [mapExcept, hfb, he2]⟩

lemma mapExcept_ok_of_forall {α β : Type} (f : α → Except String β) (l : List α)
    (h : ∀ a ∈ l, ∃ b, f a = .ok b) : ∃ bs, mapExcept f l = .ok bs := by
  induction l with
  | nil => exact ⟨[], rfl⟩
  | cons a as ih =>
    obtain ⟨b, hb⟩ := h a (List.mem_cons_self _ _)
    obtain ⟨bs, hbs⟩ := ih (fun x hx => h x (List.mem_cons_of_mem _ hx))
    exact ⟨b :: bs, by simp [mapExcept, hb, hbs]⟩

lemma mapExcept_ok_mem {α β : Type} (f : α → Except String β) (l : List α)
    (bs : List β) (a : α) (b : β) (h : mapExcept f l = .ok bs)
    (ha : a ∈ l) (hfa : f a = .ok b) : b ∈ bs := by
  induction l generalizing bs with
  | nil => cases ha
  | cons c cs ih =>
    cases hfc : f c with
    | error e => simp [mapExcept, hfc] at h
    | ok vc =>
      cases hrest : mapExcept f cs with
      | error e => simp [mapExcept, hfc, hrest] at h
      | ok bs' =>
        simp only [mapExcept, hfc, hrest, Except.ok.injEq] at h
        rw [← h]
        rcases List.mem_cons.mp ha with h1 | h1
        · subst h1
          rw [hfc] at hfa
          rw [Except.ok.injEq] at hfa
          rw [hfa]
          exact List.mem_cons_self _ _
        · exact List.mem_cons_of_mem _ (ih bs' hrest h1)

lemma basePhase_ok_inv (env : Env) (userId : String) (bts : List BaseTableConfig)
    (out : List (String × List Row) × List Event)
    (h : basePhase env userId bts = .ok out) :
    ∃ brs, mapExcept (baseStep env userId) bts = .ok brs ∧
      out = (brs.map (fun p => p.1), (brs.map (fun p => p.2)).flatten) := by
  unfold basePhase at h
  split at h
  · cases h
  · rename_i brs hm
    rw [Except.ok.injEq] at h
    exact ⟨brs, hm, h.symm⟩

lemma relationPhase_ok_inv (env : Env) (rts : List RelationTableConfig)
    (result : List (String × List Row))
    (out : List (String × List Row) × List Event)
    (h : relationPhase env rts result = .ok out) :
    ∃ rrs, mapExcept (relationStep env result) rts = .ok rrs ∧
      out = (rrs.map (fun p => p.1), (rrs.map (fun p => p.2)).flatten) := by
  unfold relationPhase at h
  split at h
  · cases h
  · rename_i rrs hm
    rw [Except.ok.injEq] at h
    exact ⟨rrs, hm, h.symm⟩

lemma exportData_ok_inv (env : Env) (userId : String) (cfg : ExportConfig)
    (out : List (String × List Row) × List Event)
    (h : exportData env userId cfg = .ok out) :
    ∃ base rel, basePhase env userId cfg.baseTables = .ok base ∧
      relationPhase env cfg.relationTables base.1 = .ok rel ∧
      out = (base.1 ++ rel.1, base.2 ++ rel.2) := by
  unfold exportData at h
  split at h
  · cases h
  · rename_i base hb
    split at h
    · cases h
    · rename_i rel hr
      rw [Except.ok.injEq] at h
      exact ⟨base, rel, hb, hr, h.symm⟩

lemma baseStep_ok_inv (env : Env) (userId : String) (config : BaseTableConfig)
    (b : (String × List Row) × List Event)
    (h : baseStep env userId config = .ok b) :
    ∃ out, queryBaseTables env userId config = .ok out ∧
      b = ((config.table, out.1), out.2) := by
  unfold baseStep at h
  split at h
  · cases h
  · rename_i o hq
    rw [Except.ok.injEq] at h
    exact ⟨o, hq, h.symm⟩

lemma relationStep_skip (env : Env) (result : List (String × List Row))
    (config : RelationTableConfig) (relation : RelationConfig)
    (hrel : relation ∈ config.relations)
    (hempty : (lookupData result relation.sourceTable).getD [] = []) :
    relationStep env result config = .ok ((config.table, []), []) := by
  unfold relationStep
  have hall : config.relations.all
      (fun r => decide (((lookupData result r.sourceTable).getD []).length > 0)) = false := by
    rw [List.all_eq_false]
    exact ⟨relation, hrel, by simp [hempty]⟩
  rw [hall]
  simp

/-- C9: `removeUserId` removes exactly the field literally named `userId`
from each row, leaves every other field and its value unchanged, and is the
identity on rows that have no `userId` field. -/
theorem C9_removeUserId_exact (data : List Row) :
    (removeUserId data).length = data.length ∧
    ∀ i (hi : i < data.length) (ho : i < (removeUserId data).length),
      getField ((removeUserId data).get ⟨i, ho⟩) "userId" = none ∧
      (∀ f, f ≠ "userId" →
        getField ((removeUserId data).get ⟨i, ho⟩) f = getField (data.get ⟨i, hi⟩) f) ∧
      (getField (data.get ⟨i, hi⟩) "userId" = none →
        (removeUserId data).get ⟨i, ho⟩ = data.get ⟨i, hi⟩) := by
  constructor
  · simp [removeUserId]
  · intro i hi ho
    have hget : (removeUserId data).get ⟨i, ho⟩ =
        (data.get ⟨i, hi⟩).filter (fun p => p.1 ≠ "userId") := by
      simp [removeUserId]
    rw [hget]
    exact ⟨getField_filter_userId _, fun f hf => getField_filter_ne _ f hf,
      fun h => filter_userId_eq_self _ h⟩

/-- Witness for C9: a row with a `userId` field and one without. -/
theorem C9_witness :
    removeUserId [[("userId", "u1"), ("a", "1")], [("b", "2")]] =
      [[("a", "1")], [("b", "2")]] ∧
    getField [("a", "1")] "userId" = none ∧
    getField [("a", "1")] "a" = some "1" := by
  refine ⟨by rfl, ?_, by rfl⟩
  have h := (C9_removeUserId_exact [[("userId", "u1"), ("a", "1")], [("b", "2")]]).2 0
    (by decide) (by decide)
  exact h.1

/-- C1 counterexample: the `users` base table is configured with owner field
`id`, yet the exported record still contains its `id` field — the code only
ever strips the literal `userId` field, not the configured owner field. -/
theorem C1_counterexample :
    ({ table := "users", userField := some "id" } : BaseTableConfig) ∈
      DATA_EXPORT_CONFIG.baseTables ∧
    queryBaseTables usersEnv "u1" { table := "users", userField := some "id" } =
      .ok ([[("id", "u1"), ("email", "e")]],
        [Event.baseQuery "users" (Condition.eqCond (some "id") "u1")]) ∧
    getField [("id", "u1"), ("email", "e")] "id" = some "u1" :=
  ⟨by decide, rfl, rfl⟩

/-- C1 (amended): every successfully exported base-table row has the field
literally named `userId` removed — not the configured owner field, which
survives when configured as something else — and relation-table rows are
stored exactly as the database returned them, with no field stripped. -/
theorem C1_amended (env : Env) (userId : String) (config : BaseTableConfig)
    (out : List Row × List Event)
    (hq : queryBaseTables env userId config = .ok out)
    (rcfg : RelationTableConfig) (existing : List (String × List Row))
    (cols : List String) (conds : List Condition) (rows : List Row)
    (hfound : findTable env rcfg.table = some cols)
    (hconds : buildConditions cols existing rcfg.relations = some conds)
    (hrun : env.runQuery rcfg.table (combineConditions conds) = .ok rows) :
    (∀ row ∈ out.1, getField row "userId" = none) ∧
    queryTable env rcfg existing =
      .ok (rows, [Event.relationQuery rcfg.table (combineConditions conds)]) := by
  constructor
  · intro row hrow
    unfold queryBaseTables at hq
    split at hq
    · exact absurd hq (by simp)
    · dsimp only at hq
      split at hq
      · rw [Except.ok.injEq] at hq
        rw [← hq] at hrow
        simp only [removeUserId, List.mem_map] at hrow
        obtain ⟨orig, _, horig⟩ := hrow
        rw [← horig]
        exact getField_filter_userId orig
      · rw [Except.ok.injEq] at hq
        rw [← hq] at hrow
        simp at hrow
  · simp [queryTable, hfound, hconds, hrun]

/-- Witness for C1 (amended), at the demo environment: the relation query
for `agentsToSessions` stores the linked row exactly as returned. -/
theorem C1_amended_witness :
    queryTable demoEnv demoRelCfg demoExisting =
      .ok ([[("agentId", "a1"), ("sessionId", "s1")]],
        [Event.relationQuery "agentsToSessions" (Condition.andCond
          [Condition.inArrayCond (some "agentId") [some "a1"],
           Condition.inArrayCond none [none, none]])]) :=
  (C1_amended demoEnv "u1" { table := "agents" }
    ([[("id", "a1"), ("title", "t")]],
      [Event.baseQuery "agents" (Condition.eqCond (some "userId") "u1")])
    rfl demoRelCfg demoExisting ["agentId", "sessionId"]
    [Condition.inArrayCond (some "agentId") [some "a1"],
     Condition.inArrayCond none [none, none]]
    [[("agentId", "a1"), ("sessionId", "s1")]] rfl rfl rfl).2

/-- C10: a relation table declaring a source table that has no entry in the
result mapping is treated exactly as if that source's exported set were
empty: skipped with an empty result and no query attempted. -/
theorem C10_missing_source_key (env : Env) (result : List (String × List Row))
    (config : RelationTableConfig) (relation : RelationConfig)
    (hrel : relation ∈ config.relations)
    (hmiss : lookupData result relation.sourceTable = none) :
    relationStep env result config = .ok ((config.table, []), []) := by
  unfold relationStep
  have hall : config.relations.all
      (fun r => decide (((lookupData result r.sourceTable).getD []).length > 0)) = false := by
    rw [List.all_eq_false]
    exact ⟨relation, hrel, by simp [hmiss]⟩
  rw [hall]
  simp

/-- Witness for C10: an empty result mapping has no `agents` key, so the
`agentsToSessions` step is skipped without querying. -/
theorem C10_witness :
    relationStep demoEnv [] demoRelCfg = .ok (("agentsToSessions", []), []) :=
  C10_missing_source_key demoEnv [] demoRelCfg
    { field := some "agentId", sourceField := some "id", sourceTable := "agents" }
    (by decide) rfl

/-- C2 counterexample: `messages` is a configured base table; in a registry
lacking it, the whole export rejects with `Table messages not found` instead
of returning a result with an empty `messages` entry. -/
theorem C2_counterexample :
    ({ table := "messages" } : BaseTableConfig) ∈ DATA_EXPORT_CONFIG.baseTables ∧
    findTable missingEnv "messages" = none ∧
    exportData missingEnv "u1" DATA_EXPORT_CONFIG = .error "Table messages not found" :=
  ⟨by decide, rfl, rfl⟩

/-- C2 (amended): the `Table ... not found` throw sits before the per-table
`try`, so it is NOT caught at the table boundary: a configured base table
missing from the registry makes `queryBaseTables` reject with that error,
and the overall export rejects instead of returning a result. -/
theorem C2_amended (env : Env) (userId : String) (cfg : ExportConfig)
    (config : BaseTableConfig) (hmem : config ∈ cfg.baseTables)
    (hmiss : findTable env config.table = none) :
    queryBaseTables env userId config =
      .error ("Table " ++ config.table ++ " not found") ∧
    ∃ e, exportData env userId cfg = .error e := by
  have hq : queryBaseTables env userId config =
      .error ("Table " ++ config.table ++ " not found") := by
    unfold queryBaseTables
    rw [hmiss]
  refine ⟨hq, ?_⟩
  have hstep : baseStep env userId config =
      .error ("Table " ++ config.table ++ " not found") := by
    unfold baseStep
    rw [hq]
  obtain ⟨e2, he2⟩ := mapExcept_error_of_mem (baseStep env userId) cfg.baseTables
    config _ hmem hstep
  refine ⟨e2, ?_⟩
  unfold exportData basePhase
  rw [he2]

/-- Witness for C2 (amended), at the concrete missing-`messages` registry. -/
theorem C2_amended_witness :
    queryBaseTables missingEnv "u1" { table := "messages" } =
      .error ("Table " ++ "messages" ++ " not found") ∧
    ∃ e, exportData missingEnv "u1" DATA_EXPORT_CONFIG = .error e :=
  C2_amended missingEnv "u1" DATA_EXPORT_CONFIG { table := "messages" } (by decide) rfl

/-- C3: a relation table with some declared source empty at the start of
the relation phase is stored as the empty set and issues no query. -/
theorem C3_empty_source_short_circuit (env : Env) (userId : String) (cfg : ExportConfig)
    (base final : List (String × List Row) × List Event)
    (config : RelationTableConfig) (relation : RelationConfig)
    (hbase : basePhase env userId cfg.baseTables = .ok base)
    (hmem : config ∈ cfg.relationTables)
    (hrel : relation ∈ config.relations)
    (hempty : (lookupData base.1 relation.sourceTable).getD [] = [])
    (hexp : exportData env userId cfg = .ok final) :
    relationStep env base.1 config = .ok ((config.table, []), []) ∧
    (config.table, ([] : List Row)) ∈ final.1 := by
  have hstep := relationStep_skip env base.1 config relation hrel hempty
  refine ⟨hstep, ?_⟩
  obtain ⟨base2, rel, hb2, hr2, hout⟩ := exportData_ok_inv env userId cfg final hexp
  rw [hbase] at hb2
  have hbb : base = base2 := Except.ok.inj hb2
  rw [← hbb] at hr2 hout
  obtain ⟨rrs, hm, hrel2⟩ := relationPhase_ok_inv env cfg.relationTables base.1 rel hr2
  have hmem2 : ((config.table, ([] : List Row)), ([] : List Event)) ∈ rrs :=
    mapExcept_ok_mem _ _ _ _ _ hm hmem hstep
  have hfin1 : final.1 = base.1 ++ rel.1 := by rw [hout]
  have hrel1 : rel.1 = rrs.map (fun p => p.1) := by rw [hrel2]
  rw [hfin1, hrel1]
  refine List.mem_append.mpr (Or.inr ?_)
  exact List.mem_map.mpr ⟨_, hmem2, rfl⟩

/-- Witness for C3: with an empty database, `agents` exports no rows and
the `agentsToSessions` step short-circuits inside the full export. -/
theorem C3_witness :
    relationStep emptyEnv [("agents", []), ("sessions", [])] demoRelCfg =
      .ok (("agentsToSessions", []), []) ∧
    ("agentsToSessions", ([] : List Row)) ∈
      [("agents", ([] : List Row)), ("sessions", []), ("agentsToSessions", [])] :=
  C3_empty_source_short_circuit emptyEnv "u1" demoCfg
    ([("agents", []), ("sessions", [])],
     [Event.baseQuery "agents" (Condition.eqCond (some "userId") "u1"),
      Event.baseQuery "sessions" (Condition.eqCond (some "userId") "u1")])
    ([("agents", []), ("sessions", []), ("agentsToSessions", [])],
     [Event.baseQuery "agents" (Condition.eqCond (some "userId") "u1"),
      Event.baseQuery "sessions" (Condition.eqCond (some "userId") "u1")])
    demoRelCfg { field := some "agentId", sourceField := some "id", sourceTable := "agents" }
    rfl (by decide) (by decide) rfl rfl

lemma relationStep_ok_fst (env : Env) (result : List (String × List Row))
    (config : RelationTableConfig) (b : (String × List Row) × List Event)
    (h : relationStep env result config = .ok b) : b.1.1 = config.table := by
  unfold relationStep at h
  split at h
  · split at h
    · cases h
    · rw [Except.ok.injEq] at h
      rw [← h]
  · rw [Except.ok.injEq] at h
    rw [← h]

/-- C5: a successful export's result mapping has an entry for every
configured table, base and relation alike. -/
theorem C5_every_table_present (env : Env) (userId : String) (cfg : ExportConfig)
    (out : List (String × List Row) × List Event)
    (hexp : exportData env userId cfg = .ok out) :
    (∀ config ∈ cfg.baseTables, ∃ rows, (config.table, rows) ∈ out.1) ∧
    (∀ config ∈ cfg.relationTables, ∃ rows, (config.table, rows) ∈ out.1) := by
  obtain ⟨base, rel, hb, hr, hout⟩ := exportData_ok_inv env userId cfg out hexp
  obtain ⟨brs, hbm, hbase_eq⟩ := basePhase_ok_inv env userId cfg.baseTables base hb
  obtain ⟨rrs, hrm, hrel_eq⟩ := relationPhase_ok_inv env cfg.relationTables base.1 rel hr
  have hf2b := mapExcept_ok_forall₂ _ _ _ hbm
  have hf2r := mapExcept_ok_forall₂ _ _ _ hrm
  have hout1 : out.1 = base.1 ++ rel.1 := by rw [hout]
  have hb1 : base.1 = brs.map (fun p => p.1) := by rw [hbase_eq]
  have hr1 : rel.1 = rrs.map (fun p => p.1) := by rw [hrel_eq]
  constructor
  · intro config hcfg
    obtain ⟨b, hbmem, hstep⟩ := forall₂_mem_left hf2b config hcfg
    obtain ⟨qout, _, hbeq⟩ := baseStep_ok_inv env userId config b hstep
    refine ⟨qout.1, ?_⟩
    rw [hout1, hb1]
    refine List.mem_append.mpr (Or.inl ?_)
    exact List.mem_map.mpr ⟨b, hbmem, by rw [hbeq]⟩
  · intro config hcfg
    obtain ⟨b, hbmem, hstep⟩ := forall₂_mem_left hf2r config hcfg
    have hfst := relationStep_ok_fst env base.1 config b hstep
    refine ⟨b.1.2, ?_⟩
    rw [hout1, hr1]
    refine List.mem_append.mpr (Or.inr ?_)
    exact List.mem_map.mpr ⟨b, hbmem, by rw [← hfst]⟩

/-- Witness for C5: the demo export has entries for a base table and for
the relation table. -/
theorem C5_witness :
    (∃ rows, ("agents", rows) ∈ demoOut.1) ∧
    ∃ rows, ("agentsToSessions", rows) ∈ demoOut.1 :=
  ⟨(C5_every_table_present demoEnv "u1" demoCfg demoOut rfl).1
      { table := "agents" } (by decide),
   (C5_every_table_present demoEnv "u1" demoCfg demoOut rfl).2
      demoRelCfg (by decide)⟩

lemma buildConditions_of_nonempty (cols : List String)
    (existing : List (String × List Row)) (rels : List RelationConfig)
    (h : ∀ r ∈ rels, (lookupData existing r.sourceTable).getD [] ≠ []) :
    buildConditions cols existing rels = some (rels.map (relationCond existing cols)) := by
  induction rels with
  | nil => rfl
  | cons r rest ih =>
    have hne := h r (List.mem_cons_self _ _)
    have hlen : ¬ ((lookupData existing r.sourceTable).getD []).length = 0 := by
      simpa [List.length_eq_zero] using hne
    unfold buildConditions
    dsimp only
    rw [if_neg hlen, ih (fun x hx => h x (List.mem_cons_of_mem _ hx))]
    rfl

/-- C4: when the relation table exists and every declared source is
non-empty, the issued filter is exactly one membership condition per
declared relation — the `sourceField` values (default `id`) of the source's
exported rows constraining the table's local field — and a multi-relation
table combines these conditions with `and`, never `or`. -/
theorem C4_filter_conjunction (env : Env) (result : List (String × List Row))
    (config : RelationTableConfig) (cols : List String)
    (hfound : findTable env config.table = some cols)
    (hne : ∀ r ∈ config.relations, (lookupData result r.sourceTable).getD [] ≠ []) :
    queryTable env config result =
      (match env.runQuery config.table
          (combineConditions (config.relations.map (relationCond result cols))) with
       | .ok rows => .ok (rows, [Event.relationQuery config.table
           (combineConditions (config.relations.map (relationCond result cols)))])
       | .error _ => .ok ([], [Event.relationQuery config.table
           (combineConditions (config.relations.map (relationCond result cols)))])) ∧
    (2 ≤ config.relations.length →
      combineConditions (config.relations.map (relationCond result cols)) =
        Condition.andCond (config.relations.map (relationCond result cols))) := by
  constructor
  · unfold queryTable
    rw [hfound]
    dsimp only
    rw [buildConditions_of_nonempty cols result config.relations hne]
  · intro h2
    rcases hl : config.relations.map (relationCond result cols) with _ | ⟨a, tl⟩
    · have hlen := congrArg List.length hl
      rw [List.length_map] at hlen
      simp only [List.length_nil] at hlen
      omega
    · rcases tl with _ | ⟨b, tl2⟩
      · have hlen := congrArg List.length hl
        rw [List.length_map] at hlen
        simp only [List.length_cons, List.length_nil] at hlen
        omega
      · rfl

/-- Witness for C4: the two-relation `agentsToSessions` filter is the AND
of its two membership conditions, carrying the source identifiers. -/
theorem C4_witness :
    queryTable demoEnv demoRelCfg demoExisting =
      .ok ([[("agentId", "a1"), ("sessionId", "s1")]],
        [Event.relationQuery "agentsToSessions" (Condition.andCond
          [Condition.inArrayCond (some "agentId") [some "a1"],
           Condition.inArrayCond none [none, none]])]) ∧
    combineConditions
        (demoRelCfg.relations.map (relationCond demoExisting ["agentId", "sessionId"])) =
      Condition.andCond
        (demoRelCfg.relations.map (relationCond demoExisting ["agentId", "sessionId"])) := by
  have h := C4_filter_conjunction demoEnv demoExisting demoRelCfg
    ["agentId", "sessionId"] rfl (by decide)
  exact ⟨h.1.trans (by rfl), h.2 (by decide)⟩

lemma queryBaseTables_ok_events (env : Env) (userId : String) (config : BaseTableConfig)
    (out : List Row × List Event) (h : queryBaseTables env userId config = .ok out) :
    ∀ ev ∈ out.2, ev.isBase = true := by
  unfold queryBaseTables at h
  split at h
  · cases h
  · dsimp only at h
    split at h
    all_goals
      rw [Except.ok.injEq] at h
      intro ev hev
      rw [← h] at hev
      dsimp only at hev
      rcases List.mem_singleton.mp hev with rfl
      rfl

lemma queryTable_ok_events (env : Env) (config : RelationTableConfig)
    (existing : List (String × List Row)) (out : List Row × List Event)
    (h : queryTable env config existing = .ok out) :
    ∀ ev ∈ out.2, ev.isBase = false := by
  unfold queryTable at h
  split at h
  · cases h
  · split at h
    · rw [Except.ok.injEq] at h
      intro ev hev
      rw [← h] at hev
      dsimp only at hev
      cases hev
    · dsimp only at h
      split at h
      all_goals
        rw [Except.ok.injEq] at h
        intro ev hev
        rw [← h] at hev
        dsimp only at hev
        rcases List.mem_singleton.mp hev with rfl
        rfl

lemma baseStep_ok_events (env : Env) (userId : String) (config : BaseTableConfig)
    (b : (String × List Row) × List Event) (h : baseStep env userId config = .ok b) :
    ∀ ev ∈ b.2, ev.isBase = true := by
  obtain ⟨o, hq, hbe⟩ := baseStep_ok_inv env userId config b h
  intro ev hev
  rw [hbe] at hev
  dsimp only at hev
  exact queryBaseTables_ok_events env userId config o hq ev hev

lemma relationStep_ok_events (env : Env) (result : List (String × List Row))
    (config : RelationTableConfig) (b : (String × List Row) × List Event)
    (h : relationStep env result config = .ok b) :
    ∀ ev ∈ b.2, ev.isBase = false := by
  unfold relationStep at h
  split at h
  · split at h
    · cases h
    · rename_i o hq
      rw [Except.ok.injEq] at h
      intro ev hev
      rw [← h] at hev
      dsimp only at hev
      exact queryTable_ok_events env config result o hq ev hev
  · rw [Except.ok.injEq] at h
    intro ev hev
    rw [← h] at hev
    dsimp only at hev
    cases hev

lemma basePhase_events (env : Env) (userId : String) (bts : List BaseTableConfig)
    (out : List (String × List Row) × List Event)
    (h : basePhase env userId bts = .ok out) :
    ∀ ev ∈ out.2, ev.isBase = true := by
  obtain ⟨brs, hm, heq⟩ := basePhase_ok_inv env userId bts out h
  have hf2 := mapExcept_ok_forall₂ _ _ _ hm
  intro ev hev
  rw [heq] at hev
  dsimp only at hev
  rw [List.mem_flatten] at hev
  obtain ⟨evs, hevs, hev2⟩ := hev
  rw [List.mem_map] at hevs
  obtain ⟨b, hbmem, hbeq⟩ := hevs
  obtain ⟨a, _, hstep⟩ := forall₂_mem_right hf2 b hbmem
  rw [← hbeq] at hev2
  exact baseStep_ok_events env userId a b hstep ev hev2

lemma relationPhase_events (env : Env) (rts : List RelationTableConfig)
    (result : List (String × List Row))
    (out : List (String × List Row) × List Event)
    (h : relationPhase env rts result = .ok out) :
    ∀ ev ∈ out.2, ev.isBase = false := by
  obtain ⟨rrs, hm, heq⟩ := relationPhase_ok_inv env rts result out h
  have hf2 := mapExcept_ok_forall₂ _ _ _ hm
  intro ev hev
  rw [heq] at hev
  dsimp only at hev
  rw [List.mem_flatten] at hev
  obtain ⟨evs, hevs, hev2⟩ := hev
  rw [List.mem_map] at hevs
  obtain ⟨b, hbmem, hbeq⟩ := hevs
  obtain ⟨a, _, hstep⟩ := forall₂_mem_right hf2 b hbmem
  rw [← hbeq] at hev2
  exact relationStep_ok_events env result a b hstep ev hev2

/-- C6: in a successful export, every relation-phase query in the trace
comes strictly after every base-phase query: the base batch is fully
awaited before the relation batch starts.  (The relation filters are built
from the base-phase mapping by construction: `relationPhase` receives
exactly `basePhase`'s result as its `result` argument in `exportData`.) -/
theorem C6_phase_ordering (env : Env) (userId : String) (cfg : ExportConfig)
    (out : List (String × List Row) × List Event)
    (hexp : exportData env userId cfg = .ok out)
    (i j : Nat) (hi : i < out.2.length) (hj : j < out.2.length)
    (hrelev : (out.2.get ⟨i, hi⟩).isBase = false)
    (hbaseev : (out.2.get ⟨j, hj⟩).isBase = true) :
    j < i := by
  obtain ⟨base, rel, hb, hr, hout⟩ := exportData_ok_inv env userId cfg out hexp
  have hbev := basePhase_events env userId cfg.baseTables base hb
  have hrev := relationPhase_events env cfg.relationTables base.1 rel hr
  subst hout
  dsimp only at hi hj hrelev hbaseev
  have hrelev2 : ((base.2 ++ rel.2)[i]).isBase = false := hrelev
  have hbaseev2 : ((base.2 ++ rel.2)[j]).isBase = true := hbaseev
  have hjlt : j < base.2.length := by
    by_contra hge
    push_neg at hge
    have hj2 : j - base.2.length < rel.2.length := by
      rw [List.length_append] at hj
      omega
    have e1 : (base.2 ++ rel.2)[j] = rel.2[j - base.2.length] :=
      List.getElem_append_right hge
    have hmem : rel.2[j - base.2.length] ∈ rel.2 := List.getElem_mem _
    have hfalse := hrev _ hmem
    rw [e1] at hbaseev2
    rw [hbaseev2] at hfalse
    cases hfalse
  have hige : base.2.length ≤ i := by
    by_contra hlt
    push_neg at hlt
    have e1 : (base.2 ++ rel.2)[i] = base.2[i] := List.getElem_append_left hlt
    have hmem : base.2[i] ∈ base.2 := List.getElem_mem _
    have htrue := hbev _ hmem
    rw [e1] at hrelev2
    rw [hrelev2] at htrue
    cases htrue
  omega

/-- Witness for C6: in the demo trace the relation query (index 2) comes
after the base query at index 0. -/
theorem C6_witness :
    exportData demoEnv "u1" demoCfg = .ok demoOut ∧ (0 : Nat) < 2 :=
  ⟨rfl, C6_phase_ordering demoEnv "u1" demoCfg demoOut rfl 2 0
    (by decide) (by decide) rfl rfl⟩

lemma queryBaseTables_total (env : Env) (userId : String) (config : BaseTableConfig)
    (cols : List String) (hfound : findTable env config.table = some cols) :
    ∃ out, queryBaseTables env userId config = .ok out := by
  unfold queryBaseTables
  rw [hfound]
  dsimp only
  cases hq : env.runQuery config.table
      (Condition.eqCond (columnRef cols (some (config.userField.getD "userId"))) userId) with
  | ok r => exact ⟨_, rfl⟩
  | error e => exact ⟨_, rfl⟩

lemma queryTable_total (env : Env) (config : RelationTableConfig)
    (existing : List (String × List Row)) (cols : List String)
    (hfound : findTable env config.table = some cols) :
    ∃ out, queryTable env config existing = .ok out := by
  unfold queryTable
  rw [hfound]
  dsimp only
  cases hb : buildConditions cols existing config.relations with
  | none => exact ⟨_, rfl⟩
  | some conds =>
    dsimp only
    cases hq : env.runQuery config.table (combineConditions conds) with
    | ok r => exact ⟨_, rfl⟩
    | error e => exact ⟨_, rfl⟩

lemma baseStep_total (env : Env) (userId : String) (config : BaseTableConfig)
    (cols : List String) (hfound : findTable env config.table = some cols) :
    ∃ b, baseStep env userId config = .ok b := by
  obtain ⟨out, hout⟩ := queryBaseTables_total env userId config cols hfound
  exact ⟨((config.table, out.1), out.2), by unfold baseStep; rw [hout]⟩

lemma relationStep_total (env : Env) (result : List (String × List Row))
    (config : RelationTableConfig) (cols : List String)
    (hfound : findTable env config.table = some cols) :
    ∃ b, relationStep env result config = .ok b := by
  unfold relationStep
  cases hall : config.relations.all
      (fun r => decide (((lookupData result r.sourceTable).getD []).length > 0)) with
  | false => exact ⟨_, rfl⟩
  | true =>
    obtain ⟨out, hout⟩ := queryTable_total env config result cols hfound
    rw [hout]
    exact ⟨_, rfl⟩

/-- C7: database query exceptions are caught at the table boundary and the
table defaults to the empty set (for base and relation tables alike); when
every configured table exists in the registry, the export as a whole
succeeds and returns a mapping no matter which queries reject. -/
theorem C7_query_error_caught (env : Env) (userId : String) (cfg : ExportConfig)
    (hfound : ∀ t ∈ cfg.baseTables.map BaseTableConfig.table ++
        cfg.relationTables.map RelationTableConfig.table,
      (findTable env t).isSome = true) :
    (∀ (config : BaseTableConfig) (cols : List String) (e : String),
      findTable env config.table = some cols →
      env.runQuery config.table (Condition.eqCond
          (columnRef cols (some (config.userField.getD "userId"))) userId) = .error e →
      queryBaseTables env userId config = .ok ([], [Event.baseQuery config.table
        (Condition.eqCond (columnRef cols (some (config.userField.getD "userId"))) userId)])) ∧
    (∀ (config : RelationTableConfig) (cols : List String) (conds : List Condition)
        (existing : List (String × List Row)) (e : String),
      findTable env config.table = some cols →
      buildConditions cols existing config.relations = some conds →
      env.runQuery config.table (combineConditions conds) = .error e →
      queryTable env config existing =
        .ok ([], [Event.relationQuery config.table (combineConditions conds)])) ∧
    ∃ res, exportData env userId cfg = .ok res := by
  refine ⟨?_, ?_, ?_⟩
  · intro config cols e hf hq
    unfold queryBaseTables
    rw [hf]
    dsimp only
    rw [hq]
  · intro config cols conds existing e hf hbc hq
    unfold queryTable
    rw [hf]
    dsimp only
    rw [hbc]
    dsimp only
    rw [hq]
  · have hbase : ∃ brs, mapExcept (baseStep env userId) cfg.baseTables = .ok brs := by
      apply mapExcept_ok_of_forall
      intro config hc
      have ht : (findTable env config.table).isSome = true :=
        hfound config.table (List.mem_append.mpr (Or.inl (List.mem_map.mpr ⟨config, hc, rfl⟩)))
      obtain ⟨cols, hcols⟩ := Option.isSome_iff_exists.mp ht
      exact baseStep_total env userId config cols hcols
    obtain ⟨brs, hbrs⟩ := hbase
    have hbp : basePhase env userId cfg.baseTables =
        .ok (brs.map (fun p => p.1), (brs.map (fun p => p.2)).flatten) := by
      unfold basePhase
      rw [hbrs]
    have hrel : ∃ rrs, mapExcept (relationStep env (brs.map (fun p => p.1)))
        cfg.relationTables = .ok rrs := by
      apply mapExcept_ok_of_forall
      intro config hc
      have ht : (findTable env config.table).isSome = true :=
        hfound config.table (List.mem_append.mpr (Or.inr (List.mem_map.mpr ⟨config, hc, rfl⟩)))
      obtain ⟨cols, hcols⟩ := Option.isSome_iff_exists.mp ht
      exact relationStep_total env _ config cols hcols
    obtain ⟨rrs, hrrs⟩ := hrel
    refine ⟨(brs.map (fun p => p.1) ++ rrs.map (fun p => p.1),
      (brs.map (fun p => p.2)).flatten ++ (rrs.map (fun p => p.2)).flatten), ?_⟩
    unfold exportData
    rw [hbp]
    dsimp only
    unfold relationPhase
    rw [hrrs]

/-- Witness for C7: with every query rejecting, a base table exports the
empty set and the whole export still succeeds. -/
theorem C7_witness :
    queryBaseTables failEnv "u1" { table := "agents" } =
      .ok ([], [Event.baseQuery "agents" (Condition.eqCond (some "userId") "u1")]) ∧
    ∃ res, exportData failEnv "u1" demoCfg = .ok res := by
  have h := C7_query_error_caught failEnv "u1" demoCfg (by decide)
  exact ⟨h.1 { table := "agents" } ["id", "userId", "title"] "boom" rfl rfl, h.2.2⟩

end DataExporter

namespace ClearFlow

lemma runSeq_all_ok (ops : ClearOps) (l : List ClearOp)
    (h : ∀ op ∈ l, opOk ops op = true) : runSeq ops l = (l, true) := by
  induction l with
  | nil => rfl
  | cons op rest ih =>
    have h1 := h op (List.mem_cons_self _ _)
    unfold runSeq
    cases hr : runOp ops op with
    | error e => simp [opOk, hr] at h1
    | ok u =>
      dsimp only
      rw [ih (fun x hx => h x (List.mem_cons_of_mem _ hx))]

lemma runSeq_stops (ops : ClearOps) (l : List ClearOp) (k : Nat) (hk : k < l.length)
    (hfail : opOk ops (l.get ⟨k, hk⟩) = false)
    (hbefore : ∀ j (hj : j < l.length), j < k → opOk ops (l.get ⟨j, hj⟩) = true) :
    runSeq ops l = (l.take (k + 1), false) := by
  induction l generalizing k with
  | nil => exact absurd hk (by simp)
  | cons op rest ih =>
    cases k with
    | zero =>
      unfold runSeq
      cases hr : runOp ops op with
      | error e => rfl
      | ok u => simp [opOk, hr] at hfail
    | succ k2 =>
      have h0 := hbefore 0 (by simp) (by omega)
      unfold runSeq
      cases hr : runOp ops op with
      | error e => simp [opOk, hr] at h0
      | ok u =>
        dsimp only
        have hk2 : k2 < rest.length := by
          simp only [List.length_cons] at hk
          omega
        have hfail2 : opOk ops (rest.get ⟨k2, hk2⟩) = false := hfail
        have hbefore2 : ∀ j (hj : j < rest.length), j < k2 →
            opOk ops (rest.get ⟨j, hj⟩) = true := by
          intro j hj hjk
          have := hbefore (j + 1) (by simp only [List.length_cons]; omega) (by omega)
          exact this
        rw [ih k2 hk2 hfail2 hbefore2]
        rfl

/-- C8: confirming the clear action invokes the six clear operations
sequentially in their documented order (each at most once, since the order
list has no duplicates); when all six resolve the trace is exactly the six
operations and the success notification is shown; when the k-th operation
is the first to reject, the trace stops at it — operations k+1 through 6
are never invoked — and the success notification is not shown. -/
theorem C8_clear_sequence (ops : ClearOps) :
    clearOrder.Nodup ∧ clearOrder.length = 6 ∧
    ((∀ op ∈ clearOrder, opOk ops op = true) → onOk ops = (clearOrder, true)) ∧
    (∀ k (hk : k < clearOrder.length),
      opOk ops (clearOrder.get ⟨k, hk⟩) = false →
      (∀ j (hj : j < clearOrder.length), j < k →
        opOk ops (clearOrder.get ⟨j, hj⟩) = true) →
      onOk ops = (clearOrder.take (k + 1), false)) := by
  refine ⟨by decide, rfl, ?_, ?_⟩
  · intro h
    exact runSeq_all_ok ops clearOrder h
  · intro k hk hfail hbefore
    exact runSeq_stops ops clearOrder k hk hfail hbefore

/-- Witness for C8: an all-resolving run shows success after all six; a run
whose third operation rejects stops after three and shows no success. -/
theorem C8_witness :
    onOk demoOpsOk = (clearOrder, true) ∧
    onOk demoOpsFail =
      ([ClearOp.clearSessions, ClearOp.removeAllPlugins, ClearOp.clearTopics], false) :=
  ⟨(C8_clear_sequence demoOpsOk).2.2.1 (by decide),
   (C8_clear_sequence demoOpsFail).2.2.2 2 (by decide) (by decide) (by decide)⟩

end ClearFlow
